import Mathlib

/-!
Shallow embedding of the makers_release pipeline
(src/api/a1_check_releace.py, src/api/a2_check_note.py, src/api/b_send_slack.py,
src/spreadsheet2json.py) and proofs about its specification.

Modelling conventions:
* Python `datetime` values are `PyDateTime`: either timezone-naive (a wall-clock
  reading in seconds) or timezone-aware (an absolute instant in seconds).
  `astimezone(timezone.utc)` on a naive value interprets it in the system local
  timezone, modelled by an explicit `localOff` offset parameter.
* Network and file effects are oracles recorded in an `Env` structure; a raised
  Python exception is an `Except.error` carrying a `PyErr`.
* `list.sort(key=..., reverse=True)` sorts ISO-8601 UTC strings of equal format,
  whose lexicographic order coincides with the chronological order of the
  underlying instants, and Python sort is stable; it is modelled by a stable
  merge sort on the integer instant key.
* `str.strip()` is modelled for the ASCII whitespace characters covered by
  `Char.isWhitespace`.
-/

namespace MakersRelease

/-- A Python datetime: either naive (no tzinfo, wall-clock seconds) or aware
(absolute instant in seconds since an arbitrary epoch). -/
inductive PyDateTime where
  | naive (wall : Int)
  | aware (instant : Int)
deriving DecidableEq, Repr

/-- Model of `dt.astimezone(timezone.utc)` as an instant: an aware datetime keeps
its instant; a naive one is interpreted in the system local timezone whose UTC
offset in seconds is `localOff`. -/
def PyDateTime.toUtcInstant (localOff : Int) : PyDateTime → Int
  | .naive w => w - localOff
  | .aware i => i

/-- Whether the datetime carries timezone information. -/
def PyDateTime.isAware : PyDateTime → Bool
  | .naive _ => false
  | .aware _ => true

/-- Python exceptions relevant to the pipeline. `httpError` is
`requests.HTTPError`; `parseError` is `xml.etree.ElementTree.ParseError`. -/
inductive PyErr where
  | httpError
  | parseError
  | runtimeError (msg : String)
  | otherError (msg : String)
deriving DecidableEq, Repr

/-- Model of Python `str.strip()` (ASCII whitespace). -/
def pyStrip (s : String) : String :=
  String.mk (((s.data.dropWhile Char.isWhitespace).reverse.dropWhile
    Char.isWhitespace).reverse)

/-- Model of `str.startswith` (over the character list). -/
def pyStartsWith (s pre : String) : Bool :=
  List.isPrefixOf pre.data s.data

/-- Whether `pat` occurs as a contiguous sublist of `l`. -/
def listHasInfix (pat : List Char) : List Char → Bool
  | [] => pat.isEmpty
  | c :: cs => List.isPrefixOf pat (c :: cs) || listHasInfix pat cs

/-- The characters after the first occurrence of `pat`, when it occurs. -/
def afterFirstSub (pat : List Char) : List Char → Option (List Char)
  | [] => if pat.isEmpty then some [] else none
  | c :: cs =>
    if List.isPrefixOf pat (c :: cs) then some ((c :: cs).drop pat.length)
    else afterFirstSub pat cs

/-- Insertion step of the stable descending sort: `x` (earlier in the input)
goes before every already-placed element of strictly smaller key and before
every element of equal key. -/
def insertKeyDesc {α : Type} (key : α → Int) (x : α) : List α → List α
  | [] => [x]
  | y :: ys =>
    if key x < key y then y :: insertKeyDesc key x ys else x :: y :: ys

/-- Stable descending sort on an integer key: the model of
`filtered.sort(key=lambda x: x["published_at"], reverse=True)`.  Python sort
is stable (also under reverse=True) and any two stable sorts by the same key
coincide, so this stable insertion sort represents it. -/
def sortByKeyDesc {α : Type} (key : α → Int) : List α → List α
  | [] => []
  | x :: xs => insertKeyDesc key x (sortByKeyDesc key xs)

theorem mem_insertKeyDesc {α : Type} (key : α → Int) (x a : α) (l : List α) :
    a ∈ insertKeyDesc key x l ↔ a = x ∨ a ∈ l := by
  induction l with
  | nil => simp [insertKeyDesc]
  | cons y ys ih =>
    unfold insertKeyDesc
    by_cases h : key x < key y
    · rw [if_pos h]
      simp only [List.mem_cons, ih]
      tauto
    · rw [if_neg h]
      simp only [List.mem_cons]

theorem mem_sortByKeyDesc {α : Type} (key : α → Int) (l : List α) (a : α) :
    a ∈ sortByKeyDesc key l ↔ a ∈ l := by
  induction l with
  | nil => exact Iff.rfl
  | cons x xs ih =>
    show a ∈ insertKeyDesc key x (sortByKeyDesc key xs) ↔ _
    rw [mem_insertKeyDesc]
    simp only [List.mem_cons, ih]

theorem pairwise_insertKeyDesc {α : Type} (key : α → Int) (x : α) (l : List α)
    (h : l.Pairwise (fun a b => key b ≤ key a)) :
    (insertKeyDesc key x l).Pairwise (fun a b => key b ≤ key a) := by
  induction l with
  | nil => simp [insertKeyDesc]
  | cons y ys ih =>
    rw [List.pairwise_cons] at h
    obtain ⟨hy, hys⟩ := h
    unfold insertKeyDesc
    by_cases hxy : key x < key y
    · rw [if_pos hxy, List.pairwise_cons]
      refine ⟨?_, ih hys⟩
      intro z hz
      rcases (mem_insertKeyDesc key x z ys).mp hz with rfl | hz2
      · exact le_of_lt hxy
      · exact hy z hz2
    · rw [if_neg hxy, List.pairwise_cons]
      constructor
      · intro z hz
        rcases List.mem_cons.mp hz with rfl | hz2
        · exact not_lt.mp hxy
        · exact le_trans (hy z hz2) (not_lt.mp hxy)
      · exact List.pairwise_cons.mpr ⟨hy, hys⟩

theorem sorted_sortByKeyDesc {α : Type} (key : α → Int) (l : List α) :
    (sortByKeyDesc key l).Pairwise (fun a b => key b ≤ key a) := by
  induction l with
  | nil => simp [sortByKeyDesc]
  | cons x xs ih => exact pairwise_insertKeyDesc key x _ ih

theorem filter_insertKeyDesc {α : Type} (key : α → Int) (x : α) (l : List α)
    (k : Int) :
    (insertKeyDesc key x l).filter (fun a => key a == k)
      = (x :: l).filter (fun a => key a == k) := by
  induction l with
  | nil => rfl
  | cons y ys ih =>
    unfold insertKeyDesc
    by_cases hxy : key x < key y
    · rw [if_pos hxy]
      simp only [List.filter_cons]
      rw [ih]
      simp only [List.filter_cons]
      by_cases hyk : (key y == k) = true
      · have hxk : ¬ ((key x == k) = true) := by
          simp only [beq_iff_eq] at hyk ⊢
          omega
        simp [hyk, hxk]
      · simp [hyk]
    · rw [if_neg hxy]

theorem filter_key_sortByKeyDesc {α : Type} (key : α → Int) (l : List α)
    (k : Int) :
    (sortByKeyDesc key l).filter (fun a => key a == k)
      = l.filter (fun a => key a == k) := by
  induction l with
  | nil => rfl
  | cons x xs ih =>
    show (insertKeyDesc key x (sortByKeyDesc key xs)).filter _ = _
    rw [filter_insertKeyDesc]
    simp only [List.filter_cons]
    rw [ih]

/-! ### a1_check_releace.py -/

/-- Model of `line.lstrip("0") or "0"` (a1_check_releace.py lines 28 and 60,
b_send_slack.py line 35): strip leading zeros, but an all-zero string becomes
the single character zero. -/
def normalizeNumericId (s : String) : String :=
  let t := s.data.dropWhile (fun c => c == '0')
  if t.isEmpty then "0" else String.mk t

/-- `load_prtimes_ids`: read id_list.txt lines, skip blanks and comments,
normalize each id.  The file is modelled as `none` (missing) or its lines. -/
def load_prtimes_ids (idListFile : Option (List String)) : List String :=
  match idListFile with
  | none => []
  | some lines =>
    ((lines.map pyStrip).filter
      (fun l => !(l == "" || pyStartsWith l "#"))).map normalizeNumericId

/-- One attempt of the regex `/p/(\d+)\.(\d+)\.html` anchored at the start of
the character list; returns the two capture groups. -/
def matchReleasePathAt : List Char → Option (String × String)
  | '/' :: 'p' :: '/' :: rest =>
    let d1 := rest.takeWhile Char.isDigit
    let r1 := rest.dropWhile Char.isDigit
    if d1.isEmpty then none
    else
      match r1 with
      | '.' :: r2 =>
        let d2 := r2.takeWhile Char.isDigit
        let r3 := r2.dropWhile Char.isDigit
        if d2.isEmpty then none
        else
          match r3 with
          | '.' :: 'h' :: 't' :: 'm' :: 'l' :: _ => some (String.mk d1, String.mk d2)
          | _ => none
      | _ => none
  | _ => none

/-- `re.search` of the pattern above: leftmost match wins. -/
def searchReleasePath : List Char → Option (String × String)
  | [] => none
  | c :: cs =>
    match matchReleasePathAt (c :: cs) with
    | some r => some r
    | none => searchReleasePath cs

/-- One `sm:url` node of the news sitemap.  `loc` is the text of the `sm:loc`
child (`none` when the element is missing, a missing text node is the empty
string), `hasNews` records whether the `news:news` child exists, `pubDate` and
`title` are the optional `news:publication_date` / `news:title` texts. -/
structure SitemapEntry where
  loc : Option String
  hasNews : Bool
  pubDate : Option String
  title : Option String
deriving DecidableEq, Repr

/-- A fetched sitemap document: either malformed XML (so `ET.fromstring`
raises) or a parsed list of url nodes. -/
inductive SitemapXml where
  | malformed
  | doc (entries : List SitemapEntry)
deriving DecidableEq, Repr

/-- A release record produced by `parse_sitemap`. -/
structure Release where
  company_id : String
  url : String
  title : String
  published_at : PyDateTime
deriving DecidableEq, Repr

/-- The per-entry body of the `parse_sitemap` loop.  `fromiso` is the oracle
for `datetime.fromisoformat` (`none` models a `ValueError`). -/
def parseSitemapEntry (fromiso : String → Option PyDateTime) (e : SitemapEntry) :
    Option Release :=
  match e.loc, e.hasNews with
  | some locText, true =>
    match searchReleasePath (pyStrip locText).data with
    | none => none
    | some g =>
      match e.pubDate with
      | none => none
      | some pd =>
        match fromiso (pyStrip pd) with
        | none => none
        | some dt =>
          some { company_id := normalizeNumericId g.2, url := pyStrip locText,
                 title := pyStrip (e.title.getD ""), published_at := dt }
  | _, _ => none

/-- `parse_sitemap`: raises `ET.ParseError` on a malformed document, otherwise
collects the entries that survive the per-entry guards. -/
def parse_sitemap (fromiso : String → Option PyDateTime) :
    SitemapXml → Except PyErr (List Release)
  | .malformed => .error .parseError
  | .doc entries => .ok (entries.filterMap (parseSitemapEntry fromiso))

/-- A filtered release as serialized into the output payload; `published_at`
is the UTC instant rendered by `isoformat()`. -/
structure ReleaseOut where
  company_id : String
  url : String
  title : String
  published_at : Int
deriving DecidableEq, Repr

/-- The two `continue` guards of the `filter_recent_releases` loop plus the
record construction. -/
def releaseKeep (target_ids : List String) (windowStart localOff : Int)
    (r : Release) : Option ReleaseOut :=
  if r.company_id ∈ target_ids then
    if r.published_at.toUtcInstant localOff < windowStart then none
    else some { company_id := r.company_id, url := r.url, title := r.title,
                published_at := r.published_at.toUtcInstant localOff }
  else none

/-- The filtered list before sorting (preserves input order). -/
def filterReleasesKeep (releases : List Release) (target_ids : List String)
    (window_hours now localOff : Int) : List ReleaseOut :=
  releases.filterMap (releaseKeep target_ids (now - window_hours * 3600) localOff)

/-- `filter_recent_releases`: keep target ids inside the window (one `now`
snapshot), then sort by `published_at` descending with a stable sort. -/
def filter_recent_releases (releases : List Release) (target_ids : List String)
    (window_hours now localOff : Int) : List ReleaseOut :=
  sortByKeyDesc (fun r => r.published_at)
    (filterReleasesKeep releases target_ids window_hours now localOff)

/-! ### a2_check_note.py -/

/-- One `item` node of an RSS channel: optional `findtext` results for
`title`, `link` and `pubDate` (a missing child yields `none`, modelled like
the empty string by the `or ""` in the source). -/
structure RawRssItem where
  title : Option String
  link : Option String
  pubDate : Option String
deriving DecidableEq, Repr

/-- A fetched RSS document: malformed XML (`ET.fromstring` raises
`ParseError`), a root without a `channel` child, or a channel with items. -/
inductive RssXml where
  | malformed
  | noChannel
  | channel (items : List RawRssItem)
deriving DecidableEq, Repr

/-- An article record produced by `parse_rss`. -/
structure Article where
  note_id : String
  url : String
  title : String
  published_at : PyDateTime
deriving DecidableEq, Repr

/-- The per-item body of the `parse_rss` loop.  `parsedate` is the oracle for
`email.utils.parsedate_to_datetime` (`none` models a raised error); a naive
result is reinterpreted as UTC by `replace(tzinfo=timezone.utc)`. -/
def parseRssItem (parsedate : String → Option PyDateTime) (note_id : String)
    (it : RawRssItem) : Option Article :=
  let title := pyStrip (it.title.getD "")
  let link := pyStrip (it.link.getD "")
  let pubRaw := pyStrip (it.pubDate.getD "")
  if link = "" ∨ pubRaw = "" then none
  else
    match parsedate pubRaw with
    | none => none
    | some dt =>
      let dtAware := match dt with
        | .naive w => PyDateTime.aware w
        | .aware i => PyDateTime.aware i
      some { note_id := note_id, url := link, title := title,
             published_at := dtAware }

/-- `parse_rss`: returns the empty list when the document is malformed or has
no channel, otherwise collects the items that survive the per-item guards. -/
def parse_rss (parsedate : String → Option PyDateTime) (xml : RssXml)
    (note_id : String) : List Article :=
  match xml with
  | .malformed => []
  | .noChannel => []
  | .channel items => items.filterMap (parseRssItem parsedate note_id)

/-- A filtered article as serialized into the output payload. -/
structure ArticleOut where
  note_id : String
  url : String
  title : String
  published_at : Int
deriving DecidableEq, Repr

/-- The `continue` guard of the `filter_recent` loop plus record
construction. -/
def articleKeep (windowStart localOff : Int) (a : Article) : Option ArticleOut :=
  if a.published_at.toUtcInstant localOff < windowStart then none
  else some { note_id := a.note_id, url := a.url, title := a.title,
              published_at := a.published_at.toUtcInstant localOff }

/-- The filtered list before sorting (preserves input order). -/
def filterArticlesKeep (articles : List Article) (window_hours now localOff : Int) :
    List ArticleOut :=
  articles.filterMap (articleKeep (now - window_hours * 3600) localOff)

/-- `filter_recent`: keep articles inside the window (one `now` snapshot),
then sort by `published_at` descending with a stable sort. -/
def filter_recent (articles : List Article) (window_hours now localOff : Int) :
    List ArticleOut :=
  sortByKeyDesc (fun a => a.published_at)
    (filterArticlesKeep articles window_hours now localOff)

/-- `load_note_ids`: read note_id_list.txt lines, skip blanks and comments. -/
def load_note_ids (noteIdFile : Option (List String)) : List String :=
  match noteIdFile with
  | none => []
  | some lines =>
    (lines.map pyStrip).filter (fun l => !(l == "" || pyStartsWith l "#"))

/-- The payload assembled by `check_notes`. -/
structure NotePayload where
  checked_at : Int
  window_hours : Int
  target_ids : List String
  count : Nat
  articles : List ArticleOut
deriving DecidableEq, Repr

/-- The body of the per-account loop of `check_notes`: any exception from the
fetch is caught (`except Exception: continue`) and yields zero items. -/
def noteItemsFor (parsedate : String → Option PyDateTime)
    (fetch : String → Except PyErr RssXml) (note_id : String) : List Article :=
  match fetch note_id with
  | .error _ => []
  | .ok xml => parse_rss parsedate xml note_id

/-- `check_notes`: fan out over the configured note ids, with per-account
failure isolation, then filter and package.  The function is total: every
per-account exception is caught inside the loop, so the Python function
cannot raise. -/
def check_notes (parsedate : String → Option PyDateTime)
    (fetch : String → Except PyErr RssXml) (note_ids : List String)
    (window_hours now localOff : Int) : NotePayload :=
  let all_articles := note_ids.flatMap (noteItemsFor parsedate fetch)
  let recent := filter_recent all_articles window_hours now localOff
  { checked_at := now, window_hours := window_hours, target_ids := note_ids,
    count := recent.length, articles := recent }

/-! ### spreadsheet2json.py -/

/-- The loop of `_dedupe_preserve_order`, with the `seen` set as a list. -/
def dedupeGo (seen : List String) : List String → List String
  | [] => []
  | v :: vs =>
    if v ∈ seen then dedupeGo seen vs else v :: dedupeGo (v :: seen) vs

/-- Model of the helper removing duplicates while keeping first occurrences. -/
def dedupePreserveOrder (values : List String) : List String := dedupeGo [] values

/-- Model of the missing-value test: remove full-width spaces, strip, then
check for empty or a missing marker (exact or as a prefix). -/
def isMissing (value : String) : Bool :=
  let normalized := pyStrip (String.mk (value.data.filter (fun c => c != '　')))
  normalized == "" || normalized == "なし" || normalized == "ナシ"
    || normalized == "無し" || pyStartsWith normalized "なし"
    || pyStartsWith normalized "ナシ" || pyStartsWith normalized "無し"

/-- Whether `pat` occurs inside `s` (model of the Python `in` operator on
strings, for a non-empty pattern). -/
def strContains (s pat : String) : Bool := listHasInfix pat.data s.data

/-- Model of `urllib.parse.urlparse(url).path` for http-style URLs: the part
after the authority (everything following the first scheme separator up to
the first slash), ending at the query or fragment. -/
def urlparsePath (url : String) : String :=
  match afterFirstSub "://".data url.data with
  | none => ""
  | some r =>
    String.mk ((r.takeWhile (fun c => !(c == '?') && !(c == '#'))).dropWhile
      (fun c => !(c == '/')))

/-- Model of `path.strip("/")`. -/
def stripSlashes (s : String) : String :=
  String.mk (((s.data.dropWhile (fun c => c == '/')).reverse.dropWhile
    (fun c => c == '/')).reverse)

/-- Model of `raw.lstrip("@")`. -/
def lstripAt (s : String) : String :=
  String.mk (s.data.dropWhile (fun c => c == '@'))

/-- Model of the note slug extraction: take the first path segment of a URL
form (the characters before the first slash, `path.split("/")[0]`), strip a
leading at sign. -/
def normalizeNoteId (value : String) : String :=
  let raw := pyStrip value
  if raw == "" then ""
  else if strContains raw "note.com" || strContains raw "://" then
    let full := if strContains raw "://" then raw else "https://" ++ raw
    let path := stripSlashes (urlparsePath full)
    if path == "" then ""
    else lstripAt (String.mk (path.data.takeWhile (fun c => !(c == '/'))))
  else lstripAt raw

/-- One CSV row as seen by `csv.DictReader`: the three optional columns
(`row.get` yields `none` for a missing column, modelled like the empty cell by
the `or ""` in the source). -/
structure CsvRow where
  prtimes_id : Option String
  note_id : Option String
  x_id : Option String
deriving DecidableEq, Repr

/-- The prtimes values appended by the `parse_ids` loop, before dedup. -/
def prRawOf (rows : List CsvRow) : List String :=
  rows.filterMap (fun row =>
    let v := pyStrip (row.prtimes_id.getD "")
    if isMissing v then none else some v)

/-- The note slugs appended by the `parse_ids` loop, before dedup. -/
def noteRawOf (rows : List CsvRow) : List String :=
  rows.filterMap (fun row =>
    let v := pyStrip (row.note_id.getD "")
    if isMissing v then none
    else
      let n := normalizeNoteId v
      if n == "" then none else some n)

/-- The x values appended by the `parse_ids` loop, before dedup. -/
def xRawOf (rows : List CsvRow) : List String :=
  rows.filterMap (fun row =>
    let v := pyStrip (row.x_id.getD "")
    if isMissing v then none else some v)

/-- The three lists returned by `parse_ids`. -/
structure ParsedIds where
  prtimes_id : List String
  note_id : List String
  x_id : List String
deriving DecidableEq, Repr

/-- `parse_ids`: filter each column and deduplicate preserving order. -/
def parse_ids (rows : List CsvRow) : ParsedIds :=
  { prtimes_id := dedupePreserveOrder (prRawOf rows)
    note_id := dedupePreserveOrder (noteRawOf rows)
    x_id := dedupePreserveOrder (xRawOf rows) }

/-! ### b_send_slack.py -/

/-- The per-name id record of the spreadsheet `by_name` mapping (each value
already passed through `str(...)`). -/
structure IdsRec where
  prtimes_id : String
  note_id : String
  x_id : String
deriving DecidableEq, Repr

/-- The three reverse-lookup tables built by the name-index helper. -/
structure NameIndex where
  pr : List (String × String)
  note : List (String × String)
  x : List (String × String)
deriving DecidableEq, Repr

/-- Dictionary lookup with overwrite semantics: the last binding of a key
wins (models `dict.get`). -/
def dictGet (d : List (String × String)) (k : String) : Option String :=
  ((d.filter (fun p => p.1 == k)).getLast?).map (fun p => p.2)

/-- The name-index builder: for each record, register the non-empty stripped
ids (the prtimes id additionally normalized) against the display name. -/
def buildNameIndex (byName : List (String × IdsRec)) : NameIndex :=
  byName.foldl (fun idx entry =>
    let nm := entry.1
    let ids := entry.2
    let prI := pyStrip ids.prtimes_id
    let idx1 := if prI == "" then idx
      else { idx with pr := idx.pr ++ [(normalizeNumericId prI, nm)] }
    let noteI := pyStrip ids.note_id
    let idx2 := if noteI == "" then idx1
      else { idx1 with note := idx1.note ++ [(noteI, nm)] }
    let xI := pyStrip ids.x_id
    if xI == "" then idx2
    else { idx2 with x := idx2.x ++ [(xI, nm)] })
    { pr := [], note := [], x := [] }

/-- The payload assembled by `check_releases`. -/
structure PrPayload where
  checked_at : Int
  window_hours : Int
  target_ids : List String
  count : Nat
  releases : List ReleaseOut
deriving DecidableEq, Repr

/-- The external world of one run: file contents, fetch outcomes per source,
the webhook configuration, the outcome of each outbound Slack post, the two
stdlib date-parsing oracles, the clock and the system timezone offset.
The preview fetch of the renderer swallows every exception and only affects
message text, so it needs no oracle. -/
structure Env where
  slackWebhookUrl : Option String
  sheet : Except PyErr (List (String × IdsRec))
  idListFile : Option (List String)
  noteIdFile : Option (List String)
  sitemap : Except PyErr SitemapXml
  noteFeed : String → Except PyErr RssXml
  slackPost : Nat → Except PyErr Unit
  fromiso : String → Option PyDateTime
  parsedate : String → Option PyDateTime
  now : Int
  localOff : Int

/-- `check_releases`: load ids, fetch and parse the shared sitemap (both
errors propagate uncaught), filter, and package. -/
def check_releases (env : Env) (window_hours : Int) : Except PyErr PrPayload :=
  let ids := load_prtimes_ids env.idListFile
  match env.sitemap with
  | .error e => .error e
  | .ok xml =>
    match parse_sitemap env.fromiso xml with
    | .error e => .error e
    | .ok releases =>
      let recent := filter_recent_releases releases ids window_hours env.now
        env.localOff
      .ok { checked_at := env.now, window_hours := window_hours,
            target_ids := ids, count := recent.length, releases := recent }

/-- Observable side effects of a run, in order of occurrence. -/
inductive Effect where
  | sheetFetch
  | sitemapFetch
  | noteFetch (note_id : String)
  | slackPost (idx : Nat)
deriving DecidableEq, Repr

/-- The release entries sent to Slack: url plus resolved display name, for
releases with a non-empty url. -/
def prEntriesOf (nameIdx : NameIndex) (pr : PrPayload) :
    List (String × Option String) :=
  pr.releases.filterMap (fun r =>
    if r.url == "" then none
    else some (r.url, dictGet nameIdx.pr r.company_id))

/-- The note entries sent to Slack. -/
def noteEntriesOf (nameIdx : NameIndex) (note : NotePayload) :
    List (String × Option String) :=
  note.articles.filterMap (fun a =>
    if a.url == "" then none
    else some (a.url, dictGet nameIdx.note a.note_id))

/-- The send loop: each entry goes through the renderer and `send_to_slack`,
which raises `RuntimeError` when the webhook is unset and propagates the HTTP
outcome of the post.  Returns the number of successful sends and the trace of
attempted posts. -/
def sendAll (env : Env) (entries : List (String × Option String)) (idx : Nat) :
    Except PyErr Nat × List Effect :=
  match entries with
  | [] => (.ok 0, [])
  | _ :: rest =>
    match env.slackWebhookUrl with
    | none => (.error (.runtimeError "SLACK_WEBHOOK_URL is not set"), [])
    | some _ =>
      match env.slackPost idx with
      | .error e => (.error e, [.slackPost idx])
      | .ok _ =>
        match sendAll env rest (idx + 1) with
        | (.error e, t) => (.error e, .slackPost idx :: t)
        | (.ok n, t) => (.ok (n + 1), .slackPost idx :: t)

/-- The note payload computed inside a run (the `check_notes` call of
`run_notification`, with `load_note_ids` reading the configured file). -/
def notePayloadOf (env : Env) (window_hours : Int) : NotePayload :=
  check_notes env.parsedate env.noteFeed (load_note_ids env.noteIdFile)
    window_hours env.now env.localOff

/-- All entries sent by a run, releases first then notes. -/
def entriesOf (env : Env) (sheetData : List (String × IdsRec)) (pr : PrPayload)
    (window_hours : Int) : List (String × Option String) :=
  prEntriesOf (buildNameIndex sheetData) pr
    ++ noteEntriesOf (buildNameIndex sheetData) (notePayloadOf env window_hours)

/-- The effects every run performs once the sheet and release stages
succeed: sheet fetch, sitemap fetch, one feed fetch per configured note id. -/
def baseTraceOf (env : Env) : List Effect :=
  Effect.sheetFetch :: Effect.sitemapFetch ::
    (load_note_ids env.noteIdFile).map Effect.noteFetch

/-- The summary dict returned by a successful run. -/
structure Summary where
  pr_count : Nat
  note_count : Nat
  messages_sent : Nat
  pr_ids : List String
  note_ids : List String
deriving DecidableEq, Repr

set_option linter.unusedVariables false in
/-- `run_notification`: sheet snapshot, release check, note check, then one
Slack message per entry.  No exception is caught here; the result is paired
with the trace of performed effects.  `persist_cache` only controls the
on-disk JSON cache write and has no observable effect in this model. -/
def run_notification (env : Env) (window_hours : Int) (persist_cache : Bool) :
    Except PyErr Summary × List Effect :=
  match env.sheet with
  | .error e => (.error e, [.sheetFetch])
  | .ok sheetData =>
    match check_releases env window_hours with
    | .error e => (.error e, [.sheetFetch, .sitemapFetch])
    | .ok pr =>
      match sendAll env (entriesOf env sheetData pr window_hours) 0 with
      | (.error e, t) => (.error e, baseTraceOf env ++ t)
      | (.ok n, t) =>
        (.ok { pr_count := (prEntriesOf (buildNameIndex sheetData) pr).length,
               note_count := (noteEntriesOf (buildNameIndex sheetData)
                 (notePayloadOf env window_hours)).length,
               messages_sent := n, pr_ids := pr.target_ids,
               note_ids := (notePayloadOf env window_hours).target_ids },
         baseTraceOf env ++ t)

/-- The HTTP response classification of `build_response` (status code and the
`ok` flag of the JSON body). -/
structure HttpResponse where
  statusCode : Nat
  okFlag : Bool
deriving DecidableEq, Repr

/-- `build_response`: run with the defaults, map success to 200,
`requests.HTTPError` to 502 and any other exception to 500. -/
def build_response (env : Env) : HttpResponse :=
  match (run_notification env 1 true).1 with
  | .ok _ => { statusCode := 200, okFlag := true }
  | .error .httpError => { statusCode := 502, okFlag := false }
  | .error _ => { statusCode := 500, okFlag := false }

/-! ### Helper lemmas -/

theorem dropWhile_dropWhile_eq {α : Type} (p : α → Bool) (l : List α) :
    (l.dropWhile p).dropWhile p = l.dropWhile p := by
  induction l with
  | nil => rfl
  | cons c cs ih =>
    by_cases h : p c
    · simp [List.dropWhile_cons, h, ih]
    · simp [List.dropWhile_cons, h]

theorem data_mk (l : List Char) : (String.mk l).data = l := rfl

theorem string_mk_ne_empty {t : List Char} (h : t ≠ []) : String.mk t ≠ "" := by
  intro hc
  apply h
  have h2 := congrArg String.data hc
  simpa using h2

theorem normalizeNumericId_ne_empty (s : String) : normalizeNumericId s ≠ "" := by
  unfold normalizeNumericId
  by_cases h : (s.data.dropWhile (fun c => c == '0')).isEmpty
  · simp only [h, if_true]
    decide
  · simp only [h, if_false]
    exact string_mk_ne_empty (by simpa [List.isEmpty_iff] using h)

theorem normalizeNumericId_idem (s : String) :
    normalizeNumericId (normalizeNumericId s) = normalizeNumericId s := by
  by_cases h : (s.data.dropWhile (fun c => c == '0')).isEmpty
  · have h1 : normalizeNumericId s = "0" := by
      unfold normalizeNumericId
      simp [h]
    rw [h1]
    decide
  · have h1 : normalizeNumericId s
        = String.mk (s.data.dropWhile (fun c => c == '0')) := by
      unfold normalizeNumericId
      simp [h]
    rw [h1]
    unfold normalizeNumericId
    simp [data_mk, dropWhile_dropWhile_eq, h]

/-- C6: numeric ID normalization strips leading zeros, never yields the empty
string (an all-zero id becomes "0"), and is idempotent on digit strings;
normalize "42" = "42", normalize "0042" = "42", normalize "0000" = "0". -/
theorem c6_numeric_id_normalization :
    (∀ s : String, s.data.all Char.isDigit = true →
        normalizeNumericId (normalizeNumericId s) = normalizeNumericId s) ∧
    normalizeNumericId "42" = "42" ∧
    normalizeNumericId "0042" = "42" ∧
    normalizeNumericId "0000" = "0" ∧
    (∀ s : String, normalizeNumericId s ≠ "") :=
  ⟨fun s _ => normalizeNumericId_idem s, by decide, by decide, by decide,
    normalizeNumericId_ne_empty⟩

/-- C6 witness: the normalization theorem applied at the concrete input
"0042". -/
theorem c6_witness :
    "0042".data.all Char.isDigit = true ∧
    normalizeNumericId (normalizeNumericId "0042") = normalizeNumericId "0042" ∧
    normalizeNumericId "0042" ≠ "" :=
  ⟨by decide, c6_numeric_id_normalization.1 "0042" (by decide),
    c6_numeric_id_normalization.2.2.2.2 "0042"⟩

/-! ### Filter correctness and ordering -/

theorem releaseKeep_eq_some {target_ids : List String}
    {windowStart localOff : Int} {r : Release} {o : ReleaseOut} :
    releaseKeep target_ids windowStart localOff r = some o ↔
      r.company_id ∈ target_ids ∧
      windowStart ≤ r.published_at.toUtcInstant localOff ∧
      o = { company_id := r.company_id, url := r.url, title := r.title,
            published_at := r.published_at.toUtcInstant localOff } := by
  unfold releaseKeep
  split
  next hmem =>
    split
    next hlt =>
      constructor
      · intro h; simp at h
      · rintro ⟨-, hle, -⟩; exact absurd hle (not_le.mpr hlt)
    next hlt =>
      simp only [Option.some.injEq]
      constructor
      · intro h; exact ⟨hmem, not_lt.mp hlt, h.symm⟩
      · rintro ⟨-, -, rfl⟩; rfl
  next hmem =>
    constructor
    · intro h; simp at h
    · rintro ⟨hm, -, -⟩; exact absurd hm hmem

theorem articleKeep_eq_some {windowStart localOff : Int} {a : Article}
    {o : ArticleOut} :
    articleKeep windowStart localOff a = some o ↔
      windowStart ≤ a.published_at.toUtcInstant localOff ∧
      o = { note_id := a.note_id, url := a.url, title := a.title,
            published_at := a.published_at.toUtcInstant localOff } := by
  unfold articleKeep
  split
  next hlt =>
    constructor
    · intro h; simp at h
    · rintro ⟨hle, -⟩; exact absurd hle (not_le.mpr hlt)
  next hlt =>
    simp only [Option.some.injEq]
    constructor
    · intro h; exact ⟨not_lt.mp hlt, h.symm⟩
    · rintro ⟨-, rfl⟩; rfl

theorem mem_filter_recent_releases (releases : List Release)
    (target_ids : List String) (window_hours now localOff : Int)
    (o : ReleaseOut) :
    o ∈ filter_recent_releases releases target_ids window_hours now localOff ↔
      ∃ r ∈ releases, r.company_id ∈ target_ids ∧
        now - window_hours * 3600 ≤ r.published_at.toUtcInstant localOff ∧
        o = { company_id := r.company_id, url := r.url, title := r.title,
              published_at := r.published_at.toUtcInstant localOff } := by
  unfold filter_recent_releases filterReleasesKeep
  rw [mem_sortByKeyDesc]
  simp only [List.mem_filterMap]
  constructor
  · rintro ⟨r, hr, hk⟩
    obtain ⟨h1, h2, h3⟩ := releaseKeep_eq_some.mp hk
    exact ⟨r, hr, h1, h2, h3⟩
  · rintro ⟨r, hr, h1, h2, h3⟩
    exact ⟨r, hr, releaseKeep_eq_some.mpr ⟨h1, h2, h3⟩⟩

theorem note_id_of_mem_parse_rss {parsedate : String → Option PyDateTime}
    {xml : RssXml} {note_id : String} {it : Article}
    (h : it ∈ parse_rss parsedate xml note_id) : it.note_id = note_id := by
  unfold parse_rss at h
  cases xml with
  | malformed => simp at h
  | noChannel => simp at h
  | channel items =>
    simp only [List.mem_filterMap] at h
    obtain ⟨raw, -, hk⟩ := h
    simp only [parseRssItem] at hk
    split at hk
    · simp at hk
    · split at hk
      · simp at hk
      · simp only [Option.some.injEq] at hk
        subst hk
        rfl

theorem note_id_of_mem_noteItemsFor {parsedate : String → Option PyDateTime}
    {fetch : String → Except PyErr RssXml} {note_id : String} {it : Article}
    (h : it ∈ noteItemsFor parsedate fetch note_id) : it.note_id = note_id := by
  unfold noteItemsFor at h
  split at h
  · simp at h
  · exact note_id_of_mem_parse_rss h

theorem mem_check_notes_articles (parsedate : String → Option PyDateTime)
    (fetch : String → Except PyErr RssXml) (note_ids : List String)
    (window_hours now localOff : Int) (a : ArticleOut) :
    a ∈ (check_notes parsedate fetch note_ids window_hours now localOff).articles ↔
      ∃ note_id ∈ note_ids, ∃ it ∈ noteItemsFor parsedate fetch note_id,
        it.note_id = note_id ∧
        now - window_hours * 3600 ≤ it.published_at.toUtcInstant localOff ∧
        a = { note_id := it.note_id, url := it.url, title := it.title,
              published_at := it.published_at.toUtcInstant localOff } := by
  show a ∈ filter_recent (note_ids.flatMap (noteItemsFor parsedate fetch))
      window_hours now localOff ↔ _
  unfold filter_recent filterArticlesKeep
  rw [mem_sortByKeyDesc]
  simp only [List.mem_filterMap, List.mem_flatMap]
  constructor
  · rintro ⟨it, ⟨note_id, hid, hit⟩, hk⟩
    obtain ⟨h1, h2⟩ := articleKeep_eq_some.mp hk
    exact ⟨note_id, hid, it, hit, note_id_of_mem_noteItemsFor hit, h1, h2⟩
  · rintro ⟨note_id, hid, it, hit, -, h1, h2⟩
    exact ⟨it, ⟨note_id, hid, hit⟩, articleKeep_eq_some.mpr ⟨h1, h2⟩⟩

/-- C1: an item passes the release filter iff its (normalized) account id is
in the target set and its UTC publish instant is at least `now` minus the
window, with an inclusive boundary and a single `now` snapshot; a note
article is in the check output iff it came from a configured account's feed
(so its account id is in the configured set) and is inside the window. -/
theorem c1_filter_correctness :
    (∀ (releases : List Release) (target_ids : List String)
        (window_hours now localOff : Int) (o : ReleaseOut),
      o ∈ filter_recent_releases releases target_ids window_hours now localOff ↔
        ∃ r ∈ releases, r.company_id ∈ target_ids ∧
          now - window_hours * 3600 ≤ r.published_at.toUtcInstant localOff ∧
          o = { company_id := r.company_id, url := r.url, title := r.title,
                published_at := r.published_at.toUtcInstant localOff }) ∧
    (∀ (parsedate : String → Option PyDateTime)
        (fetch : String → Except PyErr RssXml) (note_ids : List String)
        (window_hours now localOff : Int) (a : ArticleOut),
      a ∈ (check_notes parsedate fetch note_ids window_hours now
            localOff).articles ↔
        ∃ note_id ∈ note_ids, ∃ it ∈ noteItemsFor parsedate fetch note_id,
          it.note_id = note_id ∧
          now - window_hours * 3600 ≤ it.published_at.toUtcInstant localOff ∧
          a = { note_id := it.note_id, url := it.url, title := it.title,
                published_at := it.published_at.toUtcInstant localOff }) :=
  ⟨mem_filter_recent_releases, mem_check_notes_articles⟩

/-- C3: both filter outputs are sorted by publish instant in non-increasing
order, and restricting the output to any fixed publish instant gives exactly
the pre-sort filtered sublist in input order (stability); the output is a
pure function of the input list and the `now` snapshot. -/
theorem c3_ordering_determinism :
    (∀ (releases : List Release) (target_ids : List String)
        (window_hours now localOff : Int),
      (filter_recent_releases releases target_ids window_hours now
          localOff).Pairwise (fun a b => b.published_at ≤ a.published_at) ∧
      ∀ k : Int,
        (filter_recent_releases releases target_ids window_hours now
            localOff).filter (fun o => o.published_at == k)
          = (filterReleasesKeep releases target_ids window_hours now
              localOff).filter (fun o => o.published_at == k)) ∧
    (∀ (articles : List Article) (window_hours now localOff : Int),
      (filter_recent articles window_hours now localOff).Pairwise
        (fun a b => b.published_at ≤ a.published_at) ∧
      ∀ k : Int,
        (filter_recent articles window_hours now localOff).filter
            (fun o => o.published_at == k)
          = (filterArticlesKeep articles window_hours now localOff).filter
              (fun o => o.published_at == k)) := by
  constructor
  · intro releases target_ids window_hours now localOff
    exact ⟨sorted_sortByKeyDesc _ _, fun k => filter_key_sortByKeyDesc _ _ k⟩
  · intro articles window_hours now localOff
    exact ⟨sorted_sortByKeyDesc _ _, fun k => filter_key_sortByKeyDesc _ _ k⟩

/-! ### C2: per-account feed isolation -/

/-- C2: if the feed of one configured account raises on fetch, or its
document is malformed or lacks a channel, that account contributes zero
items and the check output carries exactly the filtered items of the
remaining accounts; `check_notes` is total (every per-account exception is
caught inside the loop), so the run completes without raising. -/
theorem c2_per_account_isolation
    (parsedate : String → Option PyDateTime)
    (fetch : String → Except PyErr RssXml)
    (pre post : List String) (f : String) (window_hours now localOff : Int)
    (hf : (∃ e, fetch f = .error e) ∨ fetch f = .ok .malformed ∨
      fetch f = .ok .noChannel) :
    noteItemsFor parsedate fetch f = [] ∧
    (check_notes parsedate fetch (pre ++ f :: post) window_hours now
        localOff).articles
      = (check_notes parsedate fetch (pre ++ post) window_hours now
          localOff).articles ∧
    (check_notes parsedate fetch (pre ++ f :: post) window_hours now
        localOff).count
      = (check_notes parsedate fetch (pre ++ post) window_hours now
          localOff).count := by
  have hz : noteItemsFor parsedate fetch f = [] := by
    unfold noteItemsFor
    rcases hf with ⟨e, he⟩ | he | he <;> rw [he] <;> rfl
  have harts : (pre ++ f :: post).flatMap (noteItemsFor parsedate fetch)
      = (pre ++ post).flatMap (noteItemsFor parsedate fetch) := by
    simp [List.flatMap_append, List.flatMap_cons, hz]
  refine ⟨hz, ?_, ?_⟩
  · show filter_recent ((pre ++ f :: post).flatMap (noteItemsFor parsedate fetch))
        window_hours now localOff
      = filter_recent ((pre ++ post).flatMap (noteItemsFor parsedate fetch))
        window_hours now localOff
    rw [harts]
  · show (filter_recent ((pre ++ f :: post).flatMap
        (noteItemsFor parsedate fetch)) window_hours now localOff).length
      = (filter_recent ((pre ++ post).flatMap (noteItemsFor parsedate fetch))
        window_hours now localOff).length
    rw [harts]

/-- A date oracle for the C2 witness. -/
def c2parsedate : String → Option PyDateTime := fun _ => some (.aware 99999)

/-- A well-formed feed document for the C2 witness. -/
def c2goodDoc : RssXml :=
  .channel [{ title := some "t", link := some "https://note.com/a/n/x1",
              pubDate := some "Mon, 01 Jan 2024 00:00:00 +0000" }]

/-- A fetch oracle for the C2 witness: one broken account among good ones. -/
def c2fetch : String → Except PyErr RssXml :=
  fun note_id => if note_id == "bad" then .error .httpError else .ok c2goodDoc

/-- C2 witness: the isolation theorem at a concrete three-account
configuration whose middle account raises an HTTP error. -/
theorem c2_witness :
    noteItemsFor c2parsedate c2fetch "bad" = [] ∧
    (check_notes c2parsedate c2fetch (["a"] ++ "bad" :: ["c"]) 1 100000
        0).articles
      = (check_notes c2parsedate c2fetch (["a"] ++ ["c"]) 1 100000 0).articles ∧
    (check_notes c2parsedate c2fetch (["a"] ++ "bad" :: ["c"]) 1 100000 0).count
      = (check_notes c2parsedate c2fetch (["a"] ++ ["c"]) 1 100000 0).count :=
  c2_per_account_isolation c2parsedate c2fetch ["a"] ["c"] "bad" 1 100000 0
    (Or.inl ⟨.httpError, rfl⟩)

/-! ### C4: parse-boundary invariant (corrected) -/

theorem searchReleasePath_ne_nil {cs : List Char} {g : String × String}
    (h : searchReleasePath cs = some g) : cs ≠ [] := by
  intro hc
  subst hc
  simp [searchReleasePath] at h

theorem ne_empty_of_data_ne_nil {s : String} (h : s.data ≠ []) : s ≠ "" := by
  intro hc
  subst hc
  exact h rfl

theorem parseSitemapEntry_some {fromiso : String → Option PyDateTime}
    {e : SitemapEntry} {it : Release}
    (h : parseSitemapEntry fromiso e = some it) :
    it.url ≠ "" ∧ ∃ raw, fromiso raw = some it.published_at := by
  unfold parseSitemapEntry at h
  cases hloc : e.loc with
  | none => rw [hloc] at h; cases e.hasNews <;> simp at h
  | some locText =>
    rw [hloc] at h
    cases hnews : e.hasNews with
    | false => rw [hnews] at h; simp at h
    | true =>
      rw [hnews] at h
      cases hsearch : searchReleasePath (pyStrip locText).data with
      | none => simp only [hsearch] at h; simp at h
      | some g =>
        simp only [hsearch] at h
        cases hpd : e.pubDate with
        | none => simp only [hpd] at h; simp at h
        | some pd =>
          simp only [hpd] at h
          cases hdt : fromiso (pyStrip pd) with
          | none => simp only [hdt] at h; simp at h
          | some dt =>
            simp only [hdt, Option.some.injEq] at h
            subst h
            refine ⟨?_, pyStrip pd, hdt⟩
            exact ne_empty_of_data_ne_nil (fun hc => searchReleasePath_ne_nil
              hsearch (by rw [hc]))

theorem parseRssItem_some {parsedate : String → Option PyDateTime}
    {note_id : String} {raw : RawRssItem} {it : Article}
    (h : parseRssItem parsedate note_id raw = some it) :
    it.url ≠ "" ∧ it.published_at.isAware = true := by
  simp only [parseRssItem] at h
  split at h
  · simp at h
  next hguard =>
    split at h
    · simp at h
    next dt hdt =>
      simp only [Option.some.injEq] at h
      subst h
      refine ⟨(not_or.mp hguard).1, ?_⟩
      cases dt <;> rfl

/-- A date oracle for the C4 counterexample, modelling the Python stdlib
behavior of `datetime.fromisoformat` on an offset-less ISO string: it returns
a timezone-naive datetime. -/
def fromisoNaiveC4 : String → Option PyDateTime :=
  fun s => if s == "2024-01-02T03:04:05" then some (.naive 1704164645) else none

/-- A sitemap entry whose publication date has no UTC offset. -/
def sitemapEntryC4 : SitemapEntry :=
  { loc := some "/p/1.0007.html", hasNews := true,
    pubDate := some "2024-01-02T03:04:05", title := some "release" }

/-- C4 counterexample: `parse_sitemap` keeps the `fromisoformat` result
as-is, so an entry with an offset-less publication date survives parse with a
timezone-naive `published_at` — not a timezone-aware timestamp normalized to
UTC at parse time as the claim states. -/
theorem c4_counterexample :
    parse_sitemap fromisoNaiveC4 (.doc [sitemapEntryC4])
      = .ok [{ company_id := "7", url := "/p/1.0007.html", title := "release",
               published_at := .naive 1704164645 }] ∧
    PyDateTime.isAware (.naive 1704164645) = false := by
  constructor
  · rfl
  · rfl

/-- C4 amended: items surviving either parser have a non-empty url and a
publish time accepted by the date parser, and entries with a missing link or
a missing/unparseable publish time are dropped without raising; `parse_rss`
additionally guarantees a timezone-aware timestamp (naive dates are assumed
UTC), but neither parser normalizes the stored timestamp to UTC — that
happens at filter time, and `parse_sitemap` may even keep a naive value. -/
theorem c4_parse_boundary_amended :
    (∀ (fromiso : String → Option PyDateTime) (entries : List SitemapEntry),
      ∃ items, parse_sitemap fromiso (.doc entries) = .ok items ∧
        ∀ it ∈ items, it.url ≠ "" ∧ ∃ raw, fromiso raw = some it.published_at) ∧
    (∀ (parsedate : String → Option PyDateTime) (xml : RssXml)
        (note_id : String), ∀ it ∈ parse_rss parsedate xml note_id,
      it.url ≠ "" ∧ it.published_at.isAware = true) ∧
    (∀ (fromiso : String → Option PyDateTime) (e : SitemapEntry),
      e.pubDate = none → parseSitemapEntry fromiso e = none) ∧
    (∀ (parsedate : String → Option PyDateTime) (note_id : String)
        (raw : RawRssItem), raw.link = none →
      parseRssItem parsedate note_id raw = none) := by
  refine ⟨?_, ?_, ?_, ?_⟩
  · intro fromiso entries
    refine ⟨entries.filterMap (parseSitemapEntry fromiso), rfl, ?_⟩
    intro it hit
    obtain ⟨e, -, he⟩ := List.mem_filterMap.mp hit
    exact parseSitemapEntry_some he
  · intro parsedate xml note_id it hit
    unfold parse_rss at hit
    cases xml with
    | malformed => simp at hit
    | noChannel => simp at hit
    | channel items =>
      obtain ⟨raw, -, hk⟩ := List.mem_filterMap.mp hit
      exact parseRssItem_some hk
  · intro fromiso e hpd
    unfold parseSitemapEntry
    cases hloc : e.loc with
    | none => cases e.hasNews <;> rfl
    | some locText =>
      cases hnews : e.hasNews with
      | false => rfl
      | true =>
        cases hsearch : searchReleasePath (pyStrip locText).data with
        | none => simp [hsearch]
        | some g => simp [hsearch, hpd]
  · intro parsedate note_id raw h
    simp only [parseRssItem, h]
    simp [pyStrip]

/-- A date oracle for the C4 witness. -/
def c4parsedate : String → Option PyDateTime := fun _ => some (.naive 77)

/-- A well-formed feed item for the C4 witness. -/
def c4rssItem : RawRssItem :=
  { title := none, link := some "https://note.com/a/n/y", pubDate := some "d" }

/-- The article the C4 witness feed item parses to. -/
def c4art : Article :=
  { note_id := "acct", url := "https://note.com/a/n/y", title := "",
    published_at := .aware 77 }

/-- C4 witness: the amended theorem applied to a concrete feed item (naive
date assumed UTC, non-empty url) and to a sitemap entry without a
publication date (dropped). -/
theorem c4_witness :
    (c4art.url ≠ "" ∧ c4art.published_at.isAware = true) ∧
    parseSitemapEntry c4parsedate
      { loc := some "x", hasNews := true, pubDate := none, title := none }
      = none :=
  ⟨c4_parse_boundary_amended.2.1 c4parsedate (.channel [c4rssItem]) "acct"
      c4art (by decide),
    c4_parse_boundary_amended.2.2.1 c4parsedate
      { loc := some "x", hasNews := true, pubDate := none, title := none } rfl⟩

/-! ### Run-level lemmas -/

theorem run_notification_sheet_error (env : Env) (window_hours : Int)
    (persist : Bool) (e : PyErr) (hs : env.sheet = .error e) :
    run_notification env window_hours persist = (.error e, [.sheetFetch]) := by
  unfold run_notification
  rw [hs]

theorem run_notification_release_error (env : Env) (window_hours : Int)
    (persist : Bool) (sheetData : List (String × IdsRec)) (e : PyErr)
    (hs : env.sheet = .ok sheetData)
    (hr : check_releases env window_hours = .error e) :
    run_notification env window_hours persist
      = (.error e, [.sheetFetch, .sitemapFetch]) := by
  unfold run_notification
  rw [hs, hr]

theorem run_notification_send_error (env : Env) (window_hours : Int)
    (persist : Bool) (sheetData : List (String × IdsRec)) (pr : PrPayload)
    (e : PyErr) (t : List Effect)
    (hs : env.sheet = .ok sheetData)
    (hr : check_releases env window_hours = .ok pr)
    (hsend : sendAll env (entriesOf env sheetData pr window_hours) 0
      = (.error e, t)) :
    run_notification env window_hours persist = (.error e, baseTraceOf env ++ t) := by
  unfold run_notification
  rw [hs, hr]
  simp [hsend]

theorem run_notification_send_ok (env : Env) (window_hours : Int)
    (persist : Bool) (sheetData : List (String × IdsRec)) (pr : PrPayload)
    (n : Nat) (t : List Effect)
    (hs : env.sheet = .ok sheetData)
    (hr : check_releases env window_hours = .ok pr)
    (hsend : sendAll env (entriesOf env sheetData pr window_hours) 0
      = (.ok n, t)) :
    run_notification env window_hours persist
      = (.ok { pr_count := (prEntriesOf (buildNameIndex sheetData) pr).length,
               note_count := (noteEntriesOf (buildNameIndex sheetData)
                 (notePayloadOf env window_hours)).length,
               messages_sent := n, pr_ids := pr.target_ids,
               note_ids := (notePayloadOf env window_hours).target_ids },
         baseTraceOf env ++ t) := by
  unfold run_notification
  rw [hs, hr]
  simp [hsend]

theorem sendAll_none (env : Env) (entries : List (String × Option String))
    (idx : Nat) (hw : env.slackWebhookUrl = none) :
    sendAll env entries idx
      = if entries.isEmpty then ((.ok 0 : Except PyErr Nat), ([] : List Effect))
        else (.error (.runtimeError "SLACK_WEBHOOK_URL is not set"), []) := by
  cases entries with
  | nil => rfl
  | cons hd tl =>
    unfold sendAll
    rw [hw]
    rfl

theorem slackPost_not_mem_baseTrace (env : Env) (k : Nat) :
    Effect.slackPost k ∉ baseTraceOf env := by
  simp [baseTraceOf, List.mem_map]

theorem sendAll_post_fail (env : Env) :
    ∀ (entries : List (String × Option String)) (idx k : Nat) (e : PyErr),
      Effect.slackPost k ∈ (sendAll env entries idx).2 →
      env.slackPost k = .error e →
      (sendAll env entries idx).1 = .error e := by
  intro entries
  induction entries with
  | nil =>
    intro idx k e hmem hfail
    simp [sendAll] at hmem
  | cons hd tl ih =>
    intro idx k e hmem hfail
    unfold sendAll at hmem ⊢
    cases hwk : env.slackWebhookUrl with
    | none =>
      rw [hwk] at hmem
      simp at hmem
    | some w =>
      rw [hwk] at hmem
      cases hp : env.slackPost idx with
      | error e2 =>
        rw [hp] at hmem
        have hmem2 : Effect.slackPost k ∈ [Effect.slackPost idx] := hmem
        simp only [List.mem_singleton, Effect.slackPost.injEq] at hmem2
        subst hmem2
        rw [hp] at hfail
        have hfail2 : e2 = e := by
          simpa using hfail
        subst hfail2
        rfl
      | ok u =>
        rw [hp] at hmem
        cases hrec : sendAll env tl (idx + 1) with
        | mk res tr =>
          rw [hrec] at hmem
          cases res with
          | error e3 =>
            have hmem2 : Effect.slackPost k ∈ Effect.slackPost idx :: tr := hmem
            have htl : Effect.slackPost k ∈ tr := by
              simp only [List.mem_cons, Effect.slackPost.injEq] at hmem2
              rcases hmem2 with rfl | hmem3
              · rw [hp] at hfail; exact absurd hfail (by simp)
              · exact hmem3
            have hres : (sendAll env tl (idx + 1)).1 = .error e := by
              apply ih (idx + 1) k e _ hfail
              rw [hrec]
              exact htl
            rw [hrec] at hres
            exact hres
          | ok n =>
            have hmem2 : Effect.slackPost k ∈ Effect.slackPost idx :: tr := hmem
            have htl : Effect.slackPost k ∈ tr := by
              simp only [List.mem_cons, Effect.slackPost.injEq] at hmem2
              rcases hmem2 with rfl | hmem3
              · rw [hp] at hfail; exact absurd hfail (by simp)
              · exact hmem3
            have hres : (sendAll env tl (idx + 1)).1 = .error e := by
              apply ih (idx + 1) k e _ hfail
              rw [hrec]
              exact htl
            rw [hrec] at hres
            simp at hres

theorem run_slackPost_fail (env : Env) (window_hours : Int) (persist : Bool)
    (k : Nat) (e : PyErr)
    (hmem : Effect.slackPost k ∈ (run_notification env window_hours persist).2)
    (hfail : env.slackPost k = .error e) :
    (run_notification env window_hours persist).1 = .error e := by
  cases hsh : env.sheet with
  | error e2 =>
    rw [run_notification_sheet_error env window_hours persist e2 hsh] at hmem
    simp at hmem
  | ok sheetData =>
    cases hcr : check_releases env window_hours with
    | error e2 =>
      rw [run_notification_release_error env window_hours persist sheetData e2
        hsh hcr] at hmem
      simp at hmem
    | ok pr =>
      cases hsend : sendAll env (entriesOf env sheetData pr window_hours) 0 with
      | mk res tr =>
        cases res with
        | error e3 =>
          rw [run_notification_send_error env window_hours persist sheetData pr
            e3 tr hsh hcr hsend] at hmem ⊢
          have hmem2 : Effect.slackPost k ∈ baseTraceOf env ++ tr := hmem
          have htr : Effect.slackPost k ∈ tr := by
            rcases List.mem_append.mp hmem2 with hb | ht
            · exact absurd hb (slackPost_not_mem_baseTrace env k)
            · exact ht
          have hres : (sendAll env (entriesOf env sheetData pr window_hours) 0).1
              = .error e := by
            apply sendAll_post_fail env _ 0 k e _ hfail
            rw [hsend]
            exact htr
          rw [hsend] at hres
          have he3 : e3 = e := by simpa using hres
          subst he3
          rfl
        | ok n =>
          rw [run_notification_send_ok env window_hours persist sheetData pr
            n tr hsh hcr hsend] at hmem ⊢
          have hmem2 : Effect.slackPost k ∈ baseTraceOf env ++ tr := hmem
          have htr : Effect.slackPost k ∈ tr := by
            rcases List.mem_append.mp hmem2 with hb | ht
            · exact absurd hb (slackPost_not_mem_baseTrace env k)
            · exact ht
          have hres : (sendAll env (entriesOf env sheetData pr window_hours) 0).1
              = .error e := by
            apply sendAll_post_fail env _ 0 k e _ hfail
            rw [hsend]
            exact htr
          rw [hsend] at hres
          simp at hres

/-! ### C5: sitemap error propagation (corrected) -/

/-- An environment whose sitemap fetch raises an HTTP error while a note
account is configured. -/
def envC5 : Env :=
  { slackWebhookUrl := some "https://hooks.example/w"
    sheet := .ok []
    idListFile := none
    noteIdFile := some ["alice"]
    sitemap := .error .httpError
    noteFeed := fun _ => .ok .noChannel
    slackPost := fun _ => .ok ()
    fromiso := fun _ => none
    parsedate := fun _ => none
    now := 0
    localOff := 0 }

/-- C5 counterexample: with a failing sitemap fetch, `run_notification` itself
ends in an error (it does not catch the failure), and the trace stops after
the sitemap fetch — the configured note account is never fetched and nothing
is sent, so the sitemap failure aborts the whole run, contrary to the claim
that run_notification catches it and only the sitemap source is lost. -/
theorem c5_counterexample :
    run_notification envC5 1 true
      = (.error .httpError, [.sheetFetch, .sitemapFetch]) := by
  rfl

/-- C5 amended: a malformed sitemap raises a parse error and a fetch failure
raises its fetch error; neither is caught in the adapter, in `check_releases`
or in `run_notification` — the error aborts the whole run (no note fetches,
no messages) and is only turned into an error response by `build_response`. -/
theorem c5_sitemap_error_propagation :
    (∀ fromiso : String → Option PyDateTime,
      parse_sitemap fromiso .malformed = .error .parseError) ∧
    (∀ (env : Env) (window_hours : Int) (e : PyErr),
      env.sitemap = .error e → check_releases env window_hours = .error e) ∧
    (∀ (env : Env) (window_hours : Int),
      env.sitemap = .ok .malformed →
      check_releases env window_hours = .error .parseError) ∧
    (∀ (env : Env) (window_hours : Int) (persist : Bool) (e : PyErr)
        (sheetData : List (String × IdsRec)),
      env.sheet = .ok sheetData →
      check_releases env window_hours = .error e →
      run_notification env window_hours persist
        = (.error e, [.sheetFetch, .sitemapFetch])) ∧
    (∀ (env : Env) (e : PyErr) (sheetData : List (String × IdsRec)),
      env.sheet = .ok sheetData → check_releases env 1 = .error e →
      (build_response env).okFlag = false) := by
  refine ⟨?_, ?_, ?_, ?_, ?_⟩
  · intro fromiso
    rfl
  · intro env window_hours e h
    unfold check_releases
    rw [h]
  · intro env window_hours h
    unfold check_releases
    rw [h]
    rfl
  · intro env window_hours persist e sheetData hs hr
    exact run_notification_release_error env window_hours persist sheetData e hs hr
  · intro env e sheetData hs hr
    have h4 := run_notification_release_error env 1 true sheetData e hs hr
    unfold build_response
    rw [h4]
    cases e <;> rfl

/-- C5 witness: the amended propagation theorem at the concrete failing
environment. -/
theorem c5_witness :
    check_releases envC5 1 = .error .httpError ∧
    (build_response envC5).okFlag = false :=
  ⟨c5_sitemap_error_propagation.2.1 envC5 1 .httpError rfl,
    c5_sitemap_error_propagation.2.2.2.2 envC5 .httpError [] rfl
      (c5_sitemap_error_propagation.2.1 envC5 1 .httpError rfl)⟩

/-! ### C7: fail-fast configuration policy (corrected) -/

/-- An environment with the delivery credential missing and no matching
content. -/
def envC7 : Env :=
  { slackWebhookUrl := none
    sheet := .ok []
    idListFile := none
    noteIdFile := none
    sitemap := .ok (.doc [])
    noteFeed := fun _ => .ok .malformed
    slackPost := fun _ => .ok ()
    fromiso := fun _ => none
    parsedate := fun _ => none
    now := 0
    localOff := 0 }

/-- C7 counterexample: with SLACK_WEBHOOK_URL unset, the run performs the
sheet and sitemap fetches and completes successfully (empty batch) — no
configuration error is raised at run start, refuting the fail-fast claim. -/
theorem c7_counterexample :
    run_notification envC7 1 true
      = (.ok { pr_count := 0, note_count := 0, messages_sent := 0,
               pr_ids := [], note_ids := [] },
         [.sheetFetch, .sitemapFetch]) := by
  rfl

/-- C7 amended: the credential is only checked inside `send_to_slack`; with
it unset the run still performs the sheet, sitemap and per-account feed
fetches, never posts to Slack, and either completes successfully with zero
messages (nothing matched) or raises the RuntimeError at the first send. -/
theorem c7_no_fail_fast (env : Env) (window_hours : Int) (persist : Bool)
    (sheetData : List (String × IdsRec)) (pr : PrPayload)
    (hw : env.slackWebhookUrl = none)
    (hs : env.sheet = .ok sheetData)
    (hr : check_releases env window_hours = .ok pr) :
    Effect.sitemapFetch ∈ (run_notification env window_hours persist).2 ∧
    (∀ id ∈ load_note_ids env.noteIdFile,
      Effect.noteFetch id ∈ (run_notification env window_hours persist).2) ∧
    (∀ n, Effect.slackPost n ∉ (run_notification env window_hours persist).2) ∧
    ((run_notification env window_hours persist).1
        = .error (.runtimeError "SLACK_WEBHOOK_URL is not set") ∨
      ∃ s, (run_notification env window_hours persist).1 = .ok s ∧
        s.messages_sent = 0) := by
  have hnone := sendAll_none env (entriesOf env sheetData pr window_hours) 0 hw
  by_cases he : (entriesOf env sheetData pr window_hours).isEmpty
  · rw [if_pos he] at hnone
    have hE := run_notification_send_ok env window_hours persist sheetData pr
      0 [] hs hr hnone
    rw [hE]
    refine ⟨?_, ?_, ?_, ?_⟩
    · simp [baseTraceOf]
    · intro id hid
      simpa [baseTraceOf] using hid
    · intro n
      simp [baseTraceOf]
    · exact Or.inr ⟨_, rfl, rfl⟩
  · rw [if_neg he] at hnone
    have hE := run_notification_send_error env window_hours persist sheetData pr
      (.runtimeError "SLACK_WEBHOOK_URL is not set") [] hs hr hnone
    rw [hE]
    refine ⟨?_, ?_, ?_, ?_⟩
    · simp [baseTraceOf]
    · intro id hid
      simpa [baseTraceOf] using hid
    · intro n
      simp [baseTraceOf]
    · exact Or.inl rfl

/-- C7 witness: the amended theorem applied at the concrete credential-less
environment. -/
theorem c7_witness :
    Effect.sitemapFetch ∈ (run_notification envC7 1 true).2 ∧
    Effect.slackPost 0 ∉ (run_notification envC7 1 true).2 := by
  have h := c7_no_fail_fast envC7 1 true []
    { checked_at := 0, window_hours := 1, target_ids := [], count := 0,
      releases := [] } rfl rfl rfl
  exact ⟨h.1, h.2.2.1 0⟩

/-! ### C8: error classification of build_response (corrected) -/

/-- An environment whose sitemap fetch raises an HTTP error (delivery is
configured and would succeed). -/
def envC8 : Env :=
  { slackWebhookUrl := some "https://hooks.example/w"
    sheet := .ok []
    idListFile := none
    noteIdFile := none
    sitemap := .error .httpError
    noteFeed := fun _ => .ok .noChannel
    slackPost := fun _ => .ok ()
    fromiso := fun _ => none
    parsedate := fun _ => none
    now := 0
    localOff := 0 }

/-- C8 counterexample: a sitemap fetch HTTP failure — not a delivery error;
the trace shows no Slack post was ever attempted — still produces status 502,
refuting the claim that 502 is returned exactly for delivery errors. -/
theorem c8_counterexample :
    build_response envC8 = { statusCode := 502, okFlag := false } ∧
    (run_notification envC8 1 true).2 = [.sheetFetch, .sitemapFetch] := by
  constructor
  · rfl
  · rfl

/-- C8 amended: `build_response` returns 200 with ok exactly when the run
succeeds, 502 exactly when the propagated exception is a `requests.HTTPError`
from any uncaught stage (sheet fetch, sitemap fetch, or Slack delivery), and
500 for every other exception; a failed Slack post always surfaces as the
run's overall error, never silently swallowed. -/
theorem c8_error_classification (env : Env) :
    ((build_response env).statusCode = 200 ∧ (build_response env).okFlag = true ↔
      ∃ s, (run_notification env 1 true).1 = .ok s) ∧
    ((build_response env).statusCode = 502 ↔
      (run_notification env 1 true).1 = .error .httpError) ∧
    ((build_response env).statusCode = 500 ↔
      ∃ e, (run_notification env 1 true).1 = .error e ∧ e ≠ .httpError) ∧
    (∀ (k : Nat) (e : PyErr),
      Effect.slackPost k ∈ (run_notification env 1 true).2 →
      env.slackPost k = .error e →
      (run_notification env 1 true).1 = .error e) := by
  refine ⟨?_, ?_, ?_, fun k e hm hf => run_slackPost_fail env 1 true k e hm hf⟩
  · unfold build_response
    cases hres : (run_notification env 1 true).1 with
    | ok s => simp
    | error e => cases e <;> simp
  · unfold build_response
    cases hres : (run_notification env 1 true).1 with
    | ok s => simp
    | error e => cases e <;> simp
  · unfold build_response
    cases hres : (run_notification env 1 true).1 with
    | ok s => simp
    | error e => cases e <;> simp

/-- An environment whose sheet fetch raises an HTTP error. -/
def envC8W : Env :=
  { slackWebhookUrl := some "https://hooks.example/w"
    sheet := .error .httpError
    idListFile := none
    noteIdFile := none
    sitemap := .ok (.doc [])
    noteFeed := fun _ => .ok .noChannel
    slackPost := fun _ => .ok ()
    fromiso := fun _ => none
    parsedate := fun _ => none
    now := 0
    localOff := 0 }

/-- A sitemap entry matching the configured account, inside the window. -/
def entryC8D : SitemapEntry :=
  { loc := some "/p/1.0007.html"
    hasNews := true
    pubDate := some "2024-01-02T03:04:05+00:00"
    title := some "r" }

/-- An environment whose only matching release reaches the send loop and
whose Slack post is rejected with an HTTP error. -/
def envC8D : Env :=
  { slackWebhookUrl := some "https://hooks.example/w"
    sheet := .ok []
    idListFile := some ["7"]
    noteIdFile := none
    sitemap := .ok (.doc [entryC8D])
    noteFeed := fun _ => .ok .noChannel
    slackPost := fun _ => .error .httpError
    fromiso := fun _ => some (.aware 1000000)
    parsedate := fun _ => none
    now := 1000000
    localOff := 0 }

/-- C8 witness: the classification theorem applied at two concrete
environments — a sheet HTTP failure classified 502, and a delivery failure
surfacing as the run's error. -/
theorem c8_witness :
    (build_response envC8W).statusCode = 502 ∧
    (run_notification envC8D 1 true).1 = .error .httpError :=
  ⟨(c8_error_classification envC8W).2.1.mpr rfl,
    (c8_error_classification envC8D).2.2.2 0 .httpError (by decide) rfl⟩

/-! ### C9: empty-batch behavior (corrected) -/

/-- The single sheet record of the C9 environment. -/
def recC9 : IdsRec :=
  { prtimes_id := "7", note_id := "alice", x_id := "" }

/-- An environment with configured accounts but no recent content. -/
def envC9 : Env :=
  { slackWebhookUrl := some "https://hooks.example/w"
    sheet := .ok [("CompanyA", recC9)]
    idListFile := some ["7"]
    noteIdFile := some ["alice"]
    sitemap := .ok (.doc [])
    noteFeed := fun _ => .ok (.channel [])
    slackPost := fun _ => .ok ()
    fromiso := fun _ => none
    parsedate := fun _ => none
    now := 0
    localOff := 0 }

/-- C9 counterexample: with both batches empty the run posts nothing under
both values of the only render configuration flag (persist_cache) — the code
supports only the strict behavior, and no configuration produces a single
"nothing new" message. -/
theorem c9_counterexample :
    run_notification envC9 1 true
      = (.ok { pr_count := 0, note_count := 0, messages_sent := 0,
               pr_ids := ["7"], note_ids := ["alice"] },
         [.sheetFetch, .sitemapFetch, .noteFetch "alice"]) ∧
    run_notification envC9 1 false
      = (.ok { pr_count := 0, note_count := 0, messages_sent := 0,
               pr_ids := ["7"], note_ids := ["alice"] },
         [.sheetFetch, .sitemapFetch, .noteFetch "alice"]) := by
  constructor
  · rfl
  · rfl

/-- C9 amended: when zero items match, `run_notification` sends no Slack
message at all (strict behavior, the only one implemented — there is no
configuration producing a "nothing new" message) and returns a summary with
pr_count = 0, note_count = 0, messages_sent = 0 without failing, for every
window_hours and persist_cache. -/
theorem c9_empty_batch (env : Env) (window_hours : Int) (persist : Bool)
    (sheetData : List (String × IdsRec)) (pr : PrPayload)
    (hs : env.sheet = .ok sheetData)
    (hr : check_releases env window_hours = .ok pr)
    (hpe : prEntriesOf (buildNameIndex sheetData) pr = [])
    (hne : noteEntriesOf (buildNameIndex sheetData)
      (notePayloadOf env window_hours) = []) :
    (run_notification env window_hours persist).1
      = .ok { pr_count := 0, note_count := 0, messages_sent := 0,
              pr_ids := pr.target_ids,
              note_ids := load_note_ids env.noteIdFile } ∧
    ∀ n, Effect.slackPost n ∉ (run_notification env window_hours persist).2 := by
  have hsend : sendAll env (entriesOf env sheetData pr window_hours) 0
      = (.ok 0, []) := by
    unfold entriesOf
    rw [hpe, hne]
    rfl
  have hE := run_notification_send_ok env window_hours persist sheetData pr
    0 [] hs hr hsend
  rw [hE]
  constructor
  · simp only [hpe, hne, List.length_nil]
    rfl
  · intro n
    simp [baseTraceOf]

/-- C9 witness: the amended theorem at the concrete empty-batch
environment. -/
theorem c9_witness :
    (run_notification envC9 1 false).1
      = .ok { pr_count := 0, note_count := 0, messages_sent := 0,
              pr_ids := ["7"], note_ids := ["alice"] } ∧
    Effect.slackPost 0 ∉ (run_notification envC9 1 false).2 := by
  have h := c9_empty_batch envC9 1 false [("CompanyA", recC9)]
    { checked_at := 0, window_hours := 1, target_ids := ["7"], count := 0,
      releases := [] } rfl rfl rfl rfl
  exact ⟨h.1, h.2 0⟩

/-! ### C10: identifier list hygiene (corrected) -/

/-- Index of the first occurrence of `v` (length of the list when absent);
used to state that dedup preserves the order of first occurrences. -/
def firstIdx (v : String) : List String → Nat
  | [] => 0
  | w :: ws => if w = v then 0 else firstIdx v ws + 1

theorem mem_dedupeGo (v : String) (l : List String) : ∀ seen : List String,
    v ∈ dedupeGo seen l ↔ v ∈ l ∧ v ∉ seen := by
  induction l with
  | nil => intro seen; simp [dedupeGo]
  | cons w ws ih =>
    intro seen
    unfold dedupeGo
    by_cases h : w ∈ seen
    · rw [if_pos h, ih seen]
      constructor
      · rintro ⟨h1, h2⟩
        exact ⟨List.mem_cons_of_mem w h1, h2⟩
      · rintro ⟨h1, h2⟩
        rcases List.mem_cons.mp h1 with rfl | h3
        · exact absurd h h2
        · exact ⟨h3, h2⟩
    · rw [if_neg h]
      simp only [List.mem_cons, ih (w :: seen)]
      constructor
      · rintro (rfl | ⟨h1, h2⟩)
        · exact ⟨Or.inl rfl, h⟩
        · refine ⟨Or.inr h1, fun hv => h2 (Or.inr hv)⟩
      · rintro ⟨h1 | h1, h2⟩
        · exact Or.inl h1
        · by_cases hvw : v = w
          · exact Or.inl hvw
          · refine Or.inr ⟨h1, fun hv => ?_⟩
            rcases hv with h3 | h3
            · exact hvw h3
            · exact h2 h3

theorem nodup_dedupeGo (l : List String) : ∀ seen : List String,
    (dedupeGo seen l).Nodup := by
  induction l with
  | nil => intro seen; simp [dedupeGo]
  | cons w ws ih =>
    intro seen
    unfold dedupeGo
    by_cases h : w ∈ seen
    · rw [if_pos h]
      exact ih seen
    · rw [if_neg h]
      refine List.nodup_cons.mpr ⟨?_, ih (w :: seen)⟩
      intro hmem
      rcases (mem_dedupeGo w ws (w :: seen)).mp hmem with ⟨-, h2⟩
      exact h2 (List.mem_cons_self w seen)

theorem firstIdx_cons_ne {v w : String} (l : List String) (h : w ≠ v) :
    firstIdx v (w :: l) = firstIdx v l + 1 := by
  simp [firstIdx, h]

theorem pairwise_firstIdx_dedupeGo (l : List String) : ∀ seen : List String,
    (dedupeGo seen l).Pairwise (fun a b => firstIdx a l < firstIdx b l) := by
  induction l with
  | nil => intro seen; simp [dedupeGo]
  | cons w ws ih =>
    intro seen
    unfold dedupeGo
    by_cases h : w ∈ seen
    · rw [if_pos h]
      refine List.Pairwise.imp_of_mem ?_ (ih seen)
      intro a b ha hb hab
      rcases (mem_dedupeGo a ws seen).mp ha with ⟨-, ha2⟩
      rcases (mem_dedupeGo b ws seen).mp hb with ⟨-, hb2⟩
      have hna : w ≠ a := fun hc => ha2 (hc ▸ h)
      have hnb : w ≠ b := fun hc => hb2 (hc ▸ h)
      rw [firstIdx_cons_ne ws hna, firstIdx_cons_ne ws hnb]
      omega
    · rw [if_neg h]
      refine List.Pairwise.cons ?_ ?_
      · intro b hb
        rcases (mem_dedupeGo b ws (w :: seen)).mp hb with ⟨-, hb2⟩
        have hnb : w ≠ b := fun hc => hb2 (hc ▸ List.mem_cons_self w seen)
        have hw : firstIdx w (w :: ws) = 0 := by simp [firstIdx]
        rw [hw, firstIdx_cons_ne ws hnb]
        omega
      · refine List.Pairwise.imp_of_mem ?_ (ih (w :: seen))
        intro a b ha hb hab
        rcases (mem_dedupeGo a ws (w :: seen)).mp ha with ⟨-, ha2⟩
        rcases (mem_dedupeGo b ws (w :: seen)).mp hb with ⟨-, hb2⟩
        have hna : w ≠ a := fun hc => ha2 (hc ▸ List.mem_cons_self w seen)
        have hnb : w ≠ b := fun hc => hb2 (hc ▸ List.mem_cons_self w seen)
        rw [firstIdx_cons_ne ws hna, firstIdx_cons_ne ws hnb]
        omega

theorem mem_dedupePreserveOrder {v : String} {l : List String}
    (h : v ∈ dedupePreserveOrder l) : v ∈ l :=
  ((mem_dedupeGo v l []).mp h).1

theorem isMissing_empty : isMissing "" = true := by decide

theorem mem_prRawOf {v : String} {rows : List CsvRow} (h : v ∈ prRawOf rows) :
    isMissing v = false := by
  unfold prRawOf at h
  obtain ⟨row, -, hk⟩ := List.mem_filterMap.mp h
  by_cases hm : isMissing (pyStrip (row.prtimes_id.getD "")) = true
  · rw [if_pos hm] at hk
    simp at hk
  · rw [if_neg hm] at hk
    simp only [Option.some.injEq] at hk
    subst hk
    exact Bool.not_eq_true _ ▸ (by simpa using hm)

theorem mem_xRawOf {v : String} {rows : List CsvRow} (h : v ∈ xRawOf rows) :
    isMissing v = false := by
  unfold xRawOf at h
  obtain ⟨row, -, hk⟩ := List.mem_filterMap.mp h
  by_cases hm : isMissing (pyStrip (row.x_id.getD "")) = true
  · rw [if_pos hm] at hk
    simp at hk
  · rw [if_neg hm] at hk
    simp only [Option.some.injEq] at hk
    subst hk
    exact Bool.not_eq_true _ ▸ (by simpa using hm)

theorem mem_noteRawOf {v : String} {rows : List CsvRow} (h : v ∈ noteRawOf rows) :
    v ≠ "" ∧ ∃ raw, isMissing raw = false ∧ v = normalizeNoteId raw := by
  unfold noteRawOf at h
  obtain ⟨row, -, hk⟩ := List.mem_filterMap.mp h
  by_cases hm : isMissing (pyStrip (row.note_id.getD "")) = true
  · rw [if_pos hm] at hk
    simp at hk
  · rw [if_neg hm] at hk
    by_cases hn : (normalizeNoteId (pyStrip (row.note_id.getD "")) == "") = true
    · rw [if_pos hn] at hk
      simp at hk
    · rw [if_neg hn] at hk
      simp only [Option.some.injEq] at hk
      subst hk
      refine ⟨by simpa using hn, pyStrip (row.note_id.getD ""), ?_, rfl⟩
      simpa using hm

/-- C10 counterexample: the raw note cell "@なし" is not detected as a
missing marker (the check runs before slug normalization), so `parse_ids`
emits the slug "なし" — the note list contains an entry that is itself a
missing marker, refuting the claim that no list entry is marked missing. -/
theorem c10_counterexample :
    (parse_ids [{ prtimes_id := none, note_id := some "@なし", x_id := none }]).note_id
      = ["なし"] ∧
    isMissing "なし" = true := by
  constructor
  · rfl
  · rfl

/-- C10 amended: each of the three lists is duplicate-free, lists values in
the order of their first occurrence, and contains no blank entries; the
prtimes and x lists contain no missing-marked values, and every note entry
is a non-empty slug normalized from a raw cell that was not missing-marked —
but the normalized slug itself may coincide with a missing marker (for
example the raw cell "@なし" yields the entry "なし"). -/
theorem c10_identifier_hygiene (rows : List CsvRow) :
    ((parse_ids rows).prtimes_id.Nodup ∧
      (parse_ids rows).prtimes_id.Pairwise
        (fun a b => firstIdx a (prRawOf rows) < firstIdx b (prRawOf rows)) ∧
      ∀ v ∈ (parse_ids rows).prtimes_id, isMissing v = false ∧ v ≠ "") ∧
    ((parse_ids rows).x_id.Nodup ∧
      (parse_ids rows).x_id.Pairwise
        (fun a b => firstIdx a (xRawOf rows) < firstIdx b (xRawOf rows)) ∧
      ∀ v ∈ (parse_ids rows).x_id, isMissing v = false ∧ v ≠ "") ∧
    ((parse_ids rows).note_id.Nodup ∧
      (parse_ids rows).note_id.Pairwise
        (fun a b => firstIdx a (noteRawOf rows) < firstIdx b (noteRawOf rows)) ∧
      ∀ v ∈ (parse_ids rows).note_id, v ≠ "" ∧
        ∃ raw, isMissing raw = false ∧ v = normalizeNoteId raw) := by
  refine ⟨⟨?_, ?_, ?_⟩, ⟨?_, ?_, ?_⟩, ⟨?_, ?_, ?_⟩⟩
  · exact nodup_dedupeGo (prRawOf rows) []
  · exact pairwise_firstIdx_dedupeGo (prRawOf rows) []
  · intro v hv
    have hm := mem_prRawOf (mem_dedupePreserveOrder hv)
    refine ⟨hm, fun hc => ?_⟩
    rw [hc] at hm
    rw [isMissing_empty] at hm
    exact Bool.true_eq_false ▸ hm
  · exact nodup_dedupeGo (xRawOf rows) []
  · exact pairwise_firstIdx_dedupeGo (xRawOf rows) []
  · intro v hv
    have hm := mem_xRawOf (mem_dedupePreserveOrder hv)
    refine ⟨hm, fun hc => ?_⟩
    rw [hc] at hm
    rw [isMissing_empty] at hm
    exact Bool.true_eq_false ▸ hm
  · exact nodup_dedupeGo (noteRawOf rows) []
  · exact pairwise_firstIdx_dedupeGo (noteRawOf rows) []
  · intro v hv
    exact mem_noteRawOf (mem_dedupePreserveOrder hv)

/-- C10 witness: the hygiene theorem applied at a one-row sheet. -/
theorem c10_witness :
    isMissing "42" = false ∧ "42" ≠ "" :=
  (c10_identifier_hygiene
    [{ prtimes_id := some "42", note_id := none, x_id := none }]).1.2.2
    "42" (by decide)

end MakersRelease
